import Mathlib

/-!
Verification development for the Ozon bulk-login script (src/ozon_login.py).

The Python program is a batch orchestrator: for each account row of a
spreadsheet it builds a proxied browser session, checks the proxy, drives a
phone + OTP login flow, reads the OTP from a mailbox over IMAP, and persists
the resulting cookies.  This file gives a shallow embedding of the logic of
that program.  External effects (IMAP, Selenium, the filesystem) are modelled
by explicit environment values describing how each external call behaves; the
control flow, the pattern matching on message bodies, the retry accounting,
the exception handlers and the resource bookkeeping are translated directly
from the source.
-/

namespace Ozon

/-!
## OTP pattern tiers (extract_otp_from_email, body scanning)

The Python code scans each decoded body part with four regular expressions,
in order:
  1. re.search of six consecutive digits,
  2. re.search of four consecutive digits,
  3. re.search of the Cyrillic keyword followed by non-digits and digits,
     case-insensitively,
  4. re.search of the word code followed by non-digits and digits,
     case-insensitively,
returning the first captured group found.  The scanners below implement the
leftmost-match semantics of re.search for exactly these patterns over lists
of characters.  Digits are modelled as ASCII decimal digits.
-/

/-- Case folding used to model re.IGNORECASE for the two keyword tiers:
ASCII letters fold via Char.toLower, and the three Cyrillic letters of the
localized keyword are folded explicitly (Char.toLower only folds ASCII). -/
def lowerCh (c : Char) : Char :=
  if c = 'К' then 'к'
  else if c = 'О' then 'о'
  else if c = 'Д' then 'д'
  else c.toLower

/-- True when the list starts with at least k characters and the first k are
all decimal digits: the test that a digit run of length k begins here. -/
def digitsAt (k : Nat) (l : List Char) : Bool :=
  decide (k ≤ l.length) && (l.take k).all Char.isDigit

/-- Leftmost occurrence of a run of k consecutive digits, returning those k
digits: the model of re.search for a fixed-width digit pattern. -/
def findRun (k : Nat) : List Char → Option (List Char)
  | [] => none
  | c :: rest =>
    if digitsAt k (c :: rest) then some ((c :: rest).take k)
    else findRun k rest

/-- True when l begins with the keyword kw, compared case-insensitively
(kw is given in lowercase). -/
def matchKeyword (kw : List Char) (l : List Char) : Bool :=
  (l.take kw.length).map lowerCh == kw

/-- The capture of a pattern of non-digits followed by one or more digits:
skip every non-digit, then return the maximal digit run, or none when no
digit follows at all.  This is the greedy capture group of the keyword
patterns in the source. -/
def digitRunAfter (l : List Char) : Option (List Char) :=
  match l.dropWhile (fun c => !c.isDigit) with
  | [] => none
  | c :: rest => some ((c :: rest).takeWhile Char.isDigit)

/-- Leftmost match of the pattern: keyword kw (case-insensitive), then any
non-digits, then a digit run, returning the digit run.  Positions are tried
left to right exactly as re.search does. -/
def findKeywordCode (kw : List Char) : List Char → Option (List Char)
  | [] => none
  | c :: rest =>
    if matchKeyword kw (c :: rest) then
      match digitRunAfter ((c :: rest).drop kw.length) with
      | some ds => some ds
      | none => findKeywordCode kw rest
    else findKeywordCode kw rest

/-- The localized keyword of the third tier, in lowercase Cyrillic. -/
def kodChars : List Char := ['к', 'о', 'д']

/-- The English keyword of the fourth tier. -/
def codeChars : List Char := ['c', 'o', 'd', 'e']

/-- Tier cascade applied to one decoded body part, translated from the body
of the part loop in extract_otp_from_email: six-digit run, then four-digit
run, then the localized keyword pattern, then the English keyword pattern,
returning on the first match. -/
def extract_from_body (body : List Char) : Option (List Char) :=
  match findRun 6 body with
  | some s => some s
  | none =>
    match findRun 4 body with
    | some s => some s
    | none =>
      match findKeywordCode kodChars body with
      | some s => some s
      | none => findKeywordCode codeChars body

/-- Walk the body parts of the candidate message in order and return the
first code any part yields, as the part loop of the source does. -/
def extractFromParts : List (List Char) → Option (List Char)
  | [] => none
  | b :: rest =>
    match extract_from_body b with
    | some s => some s
    | none => extractFromParts rest

/-!
## OTP retry loop (extract_otp_from_email)

One attempt of the Python loop either completes its mailbox search (connect,
login, select, search, possibly fetch and scan a message, then close and
logout) or is aborted by an exception from the IMAP library, caught by the
per-attempt handler.  The behaviour of the mailbox on attempt n is an
environment value: either the attempt completes and the candidate message
(if any) decodes to the given list of body parts, or the attempt raises,
with a flag recording whether the session had already been opened when it
raised.  The run records, per attempt, the externally visible mailbox
events: session open, close, logout, and the sleep between attempts.
-/

/-- Behaviour of the mailbox on one attempt. -/
inductive AttemptBehaviour where
  /-- The attempt completes; the candidate message decodes to these body
  parts (the empty list models no candidate message found). -/
  | ok (bodies : List (List Char))
  /-- The IMAP library raises mid-attempt; afterConnect records whether the
  session had been opened before the exception. -/
  | err (afterConnect : Bool)
  deriving DecidableEq

/-- Mailbox-session events of one attempt of the extractor. -/
inductive MEvent where
  | connect
  | close
  | logout
  | sleep (interval : Nat)
  deriving DecidableEq

/-- True of a sleep event of any interval. -/
def isSleepEv : MEvent → Bool
  | MEvent.connect => false
  | MEvent.close => false
  | MEvent.logout => false
  | MEvent.sleep _ => true

/-- Result of a run of the extractor: the returned code (none models the
Python None) and the event lists of the attempts made, one per attempt. -/
structure OtpRun where
  result : Option (List Char)
  events : List (List MEvent)
  deriving DecidableEq

/-- The code an attempt would extract: a completed attempt scans its body
parts, an aborted attempt yields nothing. -/
def attemptYield : AttemptBehaviour → Option (List Char)
  | AttemptBehaviour.ok bodies => extractFromParts bodies
  | AttemptBehaviour.err _ => none

/-- The retry loop of extract_otp_from_email.  The Python loop is
for attempt in range of max_retries, sleeping when attempt is below
max_retries - 1; here it is driven by the count of remaining attempts, so
remaining = 0 after the decrement means the current attempt is the last one.
On a completed attempt that finds a code the function closes the session,
logs out and returns.  On a completed attempt without a code it closes,
logs out, sleeps if attempts remain, and retries.  On an aborted attempt
the handler swallows the exception, so no close and no logout happen for
that attempt; it sleeps if attempts remain and retries. -/
def otpGo (b : Nat → AttemptBehaviour) (ri : Nat) : Nat → Nat → OtpRun
  | _, 0 => ⟨none, []⟩
  | attempt, remaining + 1 =>
    match b attempt with
    | AttemptBehaviour.ok bodies =>
      match extractFromParts bodies with
      | some code => ⟨some code, [[MEvent.connect, MEvent.close, MEvent.logout]]⟩
      | none =>
        let rest := otpGo b ri (attempt + 1) remaining
        ⟨rest.result,
          ([MEvent.connect, MEvent.close, MEvent.logout] ++
            (if remaining = 0 then [] else [MEvent.sleep ri])) :: rest.events⟩
    | AttemptBehaviour.err afterConnect =>
      let rest := otpGo b ri (attempt + 1) remaining
      ⟨rest.result,
        ((if afterConnect then [MEvent.connect] else []) ++
          (if remaining = 0 then [] else [MEvent.sleep ri])) :: rest.events⟩

/-- extract_otp_from_email over a mailbox behaviour, with max_retries mr and
retry_interval ri.  The mailbox address and password of the source are inputs
of the opaque IMAP calls and are absorbed into the behaviour. -/
def extract_otp_from_email (b : Nat → AttemptBehaviour) (mr ri : Nat) : OtpRun :=
  otpGo b ri 0 mr

/-!
## Phone normalization (login_to_ozon, phone entry)

The source keeps the number unchanged when it already starts with a plus
sign; otherwise, when it starts with the digit nine or the digit eight, it
replaces it by the plus-seven country prefix applied to the last ten
characters (the Python slice of the last ten); any other shape is entered
as given.
-/

/-- The last n characters of a list, the model of the Python negative
slice.  When the list is shorter than n the whole list is returned. -/
def lastN (n : Nat) (l : List Char) : List Char :=
  l.drop (l.length - n)

/-- Phone normalization of login_to_ozon, translated branch by branch. -/
def format_phone (s : String) : String :=
  match s.data with
  | [] => s
  | c :: rest =>
    if c = '+' then s
    else if c = '9' || c = '8' then
      String.mk ('+' :: '7' :: lastN 10 (c :: rest))
    else s

/-!
## Login state machine (login_to_ozon)

The UI waits and lookups of the source are opaque Selenium calls; the
environment below records, for one account, whether each of them succeeds.
A failed wait raises TimeoutException, and the source handles those
exceptions exactly as follows: a missing login entry button and a missing
submit or confirm button are swallowed where they occur; a missing phone
input or a missing OTP input raises out of the inner block and is caught by
the handler that saves the error_login_process screenshot and returns False;
two navigation failures save the error_navigation screenshot and return
False; an exhausted extractor saves the error_otp_retrieval screenshot and
returns False; missing success indicators with a location off the retail
domain save the login_failed screenshot and return False.  On success the
cookie set is written into the account row and the spreadsheet is saved
immediately.
-/

/-- Environment of one login run: the behaviour of every external UI call
made by login_to_ozon, plus the mailbox behaviour handed to the extractor
and the serialized cookie set the browser would report. -/
structure LoginEnv where
  /-- The first navigation ends on the retail domain. -/
  nav1Ozon : Bool
  /-- The retry navigation ends on the retail domain. -/
  nav2Ozon : Bool
  /-- The login entry button is found (its absence is swallowed). -/
  loginButtonFound : Bool
  /-- The phone input appears within its wait. -/
  phoneInputFound : Bool
  /-- The submit button is found (its absence is swallowed). -/
  submitButtonFound : Bool
  /-- The OTP input appears within its bounded wait. -/
  otpFieldFound : Bool
  /-- Mailbox behaviour seen by the OTP extractor. -/
  mailbox : Nat → AttemptBehaviour
  /-- The confirm button is found (its absence is swallowed). -/
  confirmButtonFound : Bool
  /-- Some success indicator element appears. -/
  successIndicatorFound : Bool
  /-- The final location is on the retail domain. -/
  finalUrlOzon : Bool
  /-- Serialized cookie set the browser reports on success. -/
  cookies : String

/-- Observable outcome of one login run: the returned flag, the screenshots
saved, the phone string typed into the phone field (none when the field was
never filled), the cookie value written into the account row (none when no
write happened), and whether the spreadsheet was saved. -/
structure LoginOutcome where
  success : Bool
  screenshots : List String
  enteredPhone : Option String
  cookiesWritten : Option String
  persisted : Bool

/-- login_to_ozon for one account, translated from the source control flow.
The index argument is the account row index used in screenshot names.  The
extractor is invoked with the defaults of the source call site, max_retries
eight and retry_interval five. -/
def login_to_ozon (env : LoginEnv) (phone : String) (index : Nat) : LoginOutcome :=
  if !env.nav1Ozon && !env.nav2Ozon then
    ⟨false, ["error_navigation_" ++ toString index ++ ".png"], none, none, false⟩
  else if !env.phoneInputFound then
    ⟨false, ["error_login_process_" ++ toString index ++ ".png"], none, none, false⟩
  else
    let fp := format_phone phone
    if !env.otpFieldFound then
      ⟨false, ["error_login_process_" ++ toString index ++ ".png"], some fp, none, false⟩
    else
      match (extract_otp_from_email env.mailbox 8 5).result with
      | none =>
        ⟨false, ["error_otp_retrieval_" ++ toString index ++ ".png"], some fp, none, false⟩
      | some _ =>
        if env.successIndicatorFound || env.finalUrlOzon then
          ⟨true, [], some fp, some env.cookies, true⟩
        else
          ⟨false, ["login_failed_" ++ toString index ++ ".png"], some fp, none, false⟩

/-!
## Session factory (setup_browser_with_proxy)

The try block of the factory builds the proxy-auth artifact, configures the
launch options, starts the browser and injects the anti-detection script.
The environment records which of these steps succeed.  Artifact packaging
opens the zip file on disk first and then writes its two members, so a
packaging failure can happen either before the file is created (opening
the archive fails) or after (a later write or close fails), in which case
a partially written file is left on disk; in both packaging-failure cases
the local artifact path of the factory is still unset, because the
assignment of the helper result never completed, so the except handler
cannot see such a file.  A failure after the browser process started (the
post-creation script injection) drops the started browser without quitting
it.  The except handler removes the artifact file when the path is set and
the file exists, swallows a removal failure, and returns no browser
together with the path value.
-/

/-- Behaviour of the external steps of one factory call. -/
structure SetupEnv where
  /-- Artifact packaging succeeds. -/
  createOk : Bool
  /-- When packaging fails, whether the zip file had already been created
  on disk before the failing write (true models a failure after the
  archive was opened, false a failure opening it). -/
  createPartialFile : Bool
  /-- The browser process starts. -/
  browserOk : Bool
  /-- The steps after browser start (script injection) succeed. -/
  postOk : Bool
  /-- The file removal attempted by the except handler succeeds. -/
  exceptRemoveOk : Bool

/-- Stage of the try block at which an exception was raised. -/
inductive SetupStage where
  | create
  | browserInit
  | post
  deriving DecidableEq

/-- Description of a raised construction exception: the stage, whether the
local artifact path had been assigned, whether the artifact file existed,
and whether a browser process had been started. -/
structure SetupFail where
  stage : SetupStage
  pluginPathSet : Bool
  fileExists : Bool
  browserMade : Bool
  deriving DecidableEq

/-- The try block of the factory: either it completes, or it raises with
the partial state described by SetupFail.  A packaging failure leaves the
path variable unset (the assignment never completed) and leaves a file on
disk exactly when the archive had been opened before the failing write. -/
def setup_try_body (e : SetupEnv) : Except SetupFail Unit :=
  if !e.createOk then
    Except.error ⟨SetupStage.create, false, e.createPartialFile, false⟩
  else if !e.browserOk then Except.error ⟨SetupStage.browserInit, true, true, false⟩
  else if !e.postOk then Except.error ⟨SetupStage.post, true, true, true⟩
  else Except.ok ()

/-- Observable result of one factory call: whether a browser was returned,
whether the returned path value is set, whether an artifact file exists on
disk at that path after the call, whether a started browser was dropped
without being returned or quit, and whether an artifact file was left on
disk at a path the caller does not hold (a partial file from a packaging
failure, which the handler cannot remove because its guard checks the
unset path variable). -/
structure SetupResult where
  browser : Bool
  pluginPath : Bool
  fileExists : Bool
  browserLeaked : Bool
  fileLeaked : Bool
  deriving DecidableEq

/-- setup_browser_with_proxy: run the try block; on success return the
browser and the artifact; on an exception run the handler, which removes
the artifact file when the path variable is set and the file exists
(ignoring a removal failure) and returns no browser together with the path
value.  A file left by a packaging failure has no set path variable, so the
guard of the handler skips it and the file stays on disk, untracked.  The
function is total: no exception escapes it. -/
def setup_browser_with_proxy (e : SetupEnv) : SetupResult :=
  match setup_try_body e with
  | Except.ok _ => ⟨true, true, true, false, false⟩
  | Except.error f =>
    ⟨false, f.pluginPathSet,
      f.pluginPathSet && f.fileExists && !e.exceptRemoveOk,
      f.browserMade,
      !f.pluginPathSet && f.fileExists⟩

/-!
## Batch orchestrator (main)

main iterates the spreadsheet rows.  A row whose cookies cell is present
and truthy (a non-empty string) is skipped with continue before anything
else happens.  Otherwise the previous browser is quit (exception swallowed)
and the previous artifact file is removed when its path is set and the file
exists (exception swallowed), a fresh factory call is made, the proxy check
runs (on failure the browser is quit, unguarded in the source, and the
account is skipped), the row cells are read (an exception skips the
account), and login_to_ozon runs.  After the loop the final browser is quit
and the final artifact removed, both swallowing exceptions.

The resource state below counts every browser session left running and
every artifact file left on disk, including those no variable points to any
more, so that the at-most-one claims are about real counts and not about
the two variables of the source.  The unguarded quit after a failed proxy
check is modelled as succeeding: its failure would abort the whole run.
-/

/-- One spreadsheet row: the three identity cells and the cookies cell.
none models an absent cell (NaN after the pandas read). -/
structure Record where
  phone : String
  emailAddr : String
  emailPass : String
  cookies : Option String
  deriving DecidableEq

/-- The skip test of main: pd.notna of the cookies cell and Python
truthiness of its value, so a present non-empty string. -/
def doneB (r : Record) : Bool :=
  match r.cookies with
  | none => false
  | some s => !(s == "")

/-- Environment of one loop iteration of main. -/
structure AccEnv where
  /-- The swallowed quit of the previous browser succeeds. -/
  quitOk : Bool
  /-- The swallowed removal of the previous artifact file succeeds. -/
  removeOk : Bool
  /-- Behaviour of the factory call. -/
  setup : SetupEnv
  /-- verify_proxy_working reports success. -/
  verifyOk : Bool
  /-- Reading the row cells succeeds. -/
  detailsOk : Bool
  /-- Environment of the login run. -/
  lenv : LoginEnv

/-- Resource state of the run: counts of leaked sessions and leaked files
(no longer reachable from the two variables of main), whether the tracked
browser session is alive, whether the browser variable is set, whether the
artifact file at the tracked path exists, and whether the path variable is
set. -/
structure RState where
  leakedLive : Nat
  leakedFiles : Nat
  curAlive : Bool
  varB : Bool
  curFile : Bool
  varP : Bool
  deriving DecidableEq

/-- Total count of live browser sessions. -/
def liveCount (s : RState) : Nat :=
  s.leakedLive + (if s.curAlive then 1 else 0)

/-- Total count of artifact files on disk. -/
def fileCount (s : RState) : Nat :=
  s.leakedFiles + (if s.curFile then 1 else 0)

/-- A guarded browser.quit call: attempted only when the variable is set; a
failing quit leaves the session running, and the session then becomes
unreachable once the variable is reassigned, so it is counted as leaked. -/
def quitStep (s : RState) (ok : Bool) : RState :=
  if s.varB then
    if s.curAlive then
      if ok then { s with curAlive := false }
      else { s with curAlive := false, leakedLive := s.leakedLive + 1 }
    else s
  else s

/-- A guarded os.remove call: attempted only when the path variable is set
and the file exists; a failing removal leaves the file on disk, counted as
leaked once the variable is reassigned. -/
def removeStep (s : RState) (ok : Bool) : RState :=
  if s.varP && s.curFile then
    if ok then { s with curFile := false }
    else { s with curFile := false, leakedFiles := s.leakedFiles + 1 }
  else s

/-- Operations of one loop iteration that the claims observe. -/
inductive BEvent where
  | quitOld
  | removeOld
  | artifactCreate
  | sessionCreate
  | healthCheck
  | loginRun
  | persist
  deriving DecidableEq

/-- Output of one loop iteration: the resulting row, the operations
performed for it, the resource states passed through, and the final
resource state. -/
structure StepOut where
  record : Record
  events : List BEvent
  points : List RState
  state : RState

/-- One iteration of the account loop of main, translated from the source.
A row already done is skipped before any teardown or setup.  Otherwise:
teardown of the previous session and artifact, factory call, proxy check
(with the unguarded quit on failure), row reads, then the login run, whose
cookie write updates the row. -/
def processAccount (r : Record) (e : AccEnv) (i : Nat) (s : RState) : StepOut :=
  if doneB r then ⟨r, [], [s], s⟩
  else
    let s1 := quitStep s e.quitOk
    let ev1 : List BEvent := if s.varB then [BEvent.quitOld] else []
    let s2 := removeStep s1 e.removeOk
    let ev2 : List BEvent := if s1.varP && s1.curFile then [BEvent.removeOld] else []
    let sr := setup_browser_with_proxy e.setup
    let s3 : RState :=
      ⟨s2.leakedLive + (if sr.browserLeaked then 1 else 0),
        s2.leakedFiles + (if sr.fileLeaked then 1 else 0),
        sr.browser, sr.browser, sr.fileExists, sr.pluginPath⟩
    let ev3 : List BEvent :=
      (if sr.pluginPath then [BEvent.artifactCreate] else []) ++
      (if sr.browser || sr.browserLeaked then [BEvent.sessionCreate] else [])
    if !sr.browser then
      ⟨r, ev1 ++ ev2 ++ ev3, [s1, s2, s3], s3⟩
    else if !e.verifyOk then
      let s4 := { s3 with curAlive := false }
      ⟨r, ev1 ++ ev2 ++ ev3 ++ [BEvent.healthCheck], [s1, s2, s3, s4], s4⟩
    else if !e.detailsOk then
      ⟨r, ev1 ++ ev2 ++ ev3 ++ [BEvent.healthCheck], [s1, s2, s3], s3⟩
    else
      let lo := login_to_ozon e.lenv r.phone i
      let r2 : Record :=
        match lo.cookiesWritten with
        | some c => { r with cookies := some c }
        | none => r
      ⟨r2,
        ev1 ++ ev2 ++ ev3 ++ [BEvent.healthCheck, BEvent.loginRun] ++
          (if lo.persisted then [BEvent.persist] else []),
        [s1, s2, s3], s3⟩

/-- Accumulated output of the account loop. -/
structure BatchAccum where
  records : List Record
  events : List (List BEvent)
  trace : List RState
  state : RState

/-- The account loop of main over the remaining rows, with i the index of
the first of them. -/
def runAccounts (envs : Nat → AccEnv) : List Record → Nat → RState → BatchAccum
  | [], _, s => ⟨[], [], [], s⟩
  | r :: rest, i, s =>
    let st := processAccount r (envs i) i s
    let acc := runAccounts envs rest (i + 1) st.state
    ⟨st.record :: acc.records, st.events :: acc.events, st.points ++ acc.trace, acc.state⟩

/-- Result of a whole batch run. -/
structure BatchResult where
  records : List Record
  events : List (List BEvent)
  trace : List RState
  finalState : RState

/-- main: run the account loop from an empty resource state, then perform
the final cleanup, quitting the last browser and removing the last artifact
file, both guarded and with exceptions swallowed (fq and fr record whether
those two cleanup calls succeed). -/
def runBatch (records : List Record) (envs : Nat → AccEnv) (fq fr : Bool) : BatchResult :=
  let acc := runAccounts envs records 0 ⟨0, 0, false, false, false, false⟩
  let t1 := quitStep acc.state fq
  let t2 := removeStep t1 fr
  ⟨acc.records, acc.events, acc.trace ++ [t1, t2], t2⟩

/-- Coherence and cleanliness of a resource state: nothing leaked, and the
tracked resources are reachable from their variables. -/
def Inv (s : RState) : Prop :=
  s.leakedLive = 0 ∧ s.leakedFiles = 0 ∧
    (s.curAlive = true → s.varB = true) ∧ (s.curFile = true → s.varP = true)

/-!
## Concrete instances used by the closed statements below
-/

/-- A login environment in which every external call fails; used where the
login run itself is irrelevant. -/
def failingLenv : LoginEnv :=
  ⟨false, false, false, false, false, false, fun _ => AttemptBehaviour.err false,
    false, false, false, ""⟩

/-- A login environment whose run reaches the phone field but whose OTP
input never appears. -/
def otpTimeoutLenv : LoginEnv :=
  ⟨true, false, true, true, true, false, fun _ => AttemptBehaviour.err false,
    false, false, false, ""⟩

/-- A factory environment in which every step succeeds. -/
def allOkSetup : SetupEnv := ⟨true, false, true, true, true⟩

/-- An iteration environment in which every external call succeeds and the
login run reaches a successful verification. -/
def cleanAccEnv : AccEnv :=
  ⟨true, true, allOkSetup, true, true,
    ⟨true, false, true, true, true, true,
      fun _ => AttemptBehaviour.ok [['1', '2', '3', '4', '5', '6']],
      true, true, true, "cookiejar"⟩⟩

/-- An iteration environment whose proxy check fails and whose swallowed
artifact removal fails, leaving the previous artifact file on disk. -/
def removeFailAccEnv : AccEnv :=
  ⟨true, false, allOkSetup, false, true, failingLenv⟩

/-- A row without cookies. -/
def freshRecord : Record := ⟨"89991234567", "a@rambler.ru", "pw", none⟩

/-- A row already holding a cookie set. -/
def doneRecord : Record := ⟨"89991234567", "a@rambler.ru", "pw", some "cookies"⟩

/-- A mailbox behaviour raising after the session is open, on every
attempt. -/
def alwaysErrAfterConnect : Nat → AttemptBehaviour :=
  fun _ => AttemptBehaviour.err true

/-- A mailbox behaviour with no code on the first attempt and a six-digit
code on the second. -/
def secondTryMailbox : Nat → AttemptBehaviour :=
  fun n =>
    if n = 0 then AttemptBehaviour.ok []
    else AttemptBehaviour.ok [['1', '2', '3', '4', '5', '6']]

/-- A mailbox behaviour raising on the first attempt and delivering a
six-digit code on the second. -/
def errThenCodeMailbox : Nat → AttemptBehaviour :=
  fun n =>
    if n = 0 then AttemptBehaviour.err true
    else AttemptBehaviour.ok [['1', '2', '3', '4', '5', '6']]

/-!
## Lemmas about the pattern tiers
-/

theorem findRun_sound (k : Nat) :
    ∀ (l s : List Char), findRun k l = some s →
      s.length = k ∧ ∀ c ∈ s, c.isDigit = true := by
  intro l
  induction l with
  | nil => intro s h; simp [findRun] at h
  | cons c rest ih =>
    intro s h
    simp only [findRun] at h
    by_cases hd : digitsAt k (c :: rest) = true
    · rw [if_pos hd] at h
      injection h with h
      subst h
      have hk : k ≤ (c :: rest).length ∧ ((c :: rest).take k).all Char.isDigit = true := by
        simpa [digitsAt] using hd
      refine ⟨?_, ?_⟩
      · rw [List.length_take]
        exact Nat.min_eq_left hk.1
      · intro x hx
        exact List.all_eq_true.mp hk.2 x hx
    · rw [if_neg hd] at h
      exact ih s h

theorem findRun_exists (k : Nat) (hk : 0 < k) :
    ∀ (l m r : List Char), m.length = k → (∀ c ∈ m, c.isDigit = true) →
      ∃ s, findRun k (l ++ (m ++ r)) = some s := by
  intro l
  induction l with
  | nil =>
    intro m r hm hd
    cases m with
    | nil => simp at hm; omega
    | cons d m' =>
      have h1 : k ≤ ((d :: m') ++ r).length := by
        rw [List.length_append, hm]
        omega
      have h2 : ((d :: m') ++ r).take k = d :: m' := by
        rw [← hm]
        exact List.take_left _ _
      have hda : digitsAt k ((d :: m') ++ r) = true := by
        unfold digitsAt
        rw [Bool.and_eq_true, decide_eq_true_eq]
        refine ⟨h1, ?_⟩
        rw [h2, List.all_eq_true]
        intro x hx
        exact hd x hx
      refine ⟨(d :: (m' ++ r)).take k, ?_⟩
      have hda' : digitsAt k (d :: (m' ++ r)) = true := by simpa using hda
      simp [findRun, hda']
  | cons a l' ih =>
    intro m r hm hd
    obtain ⟨s, hs⟩ := ih m r hm hd
    by_cases hda : digitsAt k (a :: (l' ++ (m ++ r))) = true
    · refine ⟨(a :: (l' ++ (m ++ r))).take k, ?_⟩
      simp [findRun, hda]
    · refine ⟨s, ?_⟩
      simp [findRun, hda, hs]

theorem dropWhile_head_false (p : Char → Bool) :
    ∀ (l : List Char) (c : Char) (t : List Char),
      l.dropWhile p = c :: t → p c = false := by
  intro l
  induction l with
  | nil => intro c t h; simp [List.dropWhile] at h
  | cons a l' ih =>
    intro c t h
    cases hp : p a with
    | true =>
      rw [List.dropWhile_cons, if_pos hp] at h
      exact ih c t h
    | false =>
      rw [List.dropWhile_cons, if_neg (by simp [hp])] at h
      injection h with h1 h2
      subst h1
      exact hp

theorem digitRunAfter_sound :
    ∀ (l s : List Char), digitRunAfter l = some s →
      s ≠ [] ∧ ∀ c ∈ s, c.isDigit = true := by
  intro l s h
  unfold digitRunAfter at h
  cases hdw : l.dropWhile (fun c => !c.isDigit) with
  | nil => rw [hdw] at h; simp at h
  | cons c t =>
    rw [hdw] at h
    injection h with h
    have hc : (!c.isDigit) = false := dropWhile_head_false _ l c t hdw
    have hc' : c.isDigit = true := by simpa using hc
    subst h
    constructor
    · simp [List.takeWhile_cons, hc']
    · intro x hx
      exact List.mem_takeWhile_imp hx

theorem findKeywordCode_sound (kw : List Char) :
    ∀ (l s : List Char), findKeywordCode kw l = some s →
      s ≠ [] ∧ ∀ c ∈ s, c.isDigit = true := by
  intro l
  induction l with
  | nil => intro s h; simp [findKeywordCode] at h
  | cons c rest ih =>
    intro s h
    simp only [findKeywordCode] at h
    by_cases hm : matchKeyword kw (c :: rest) = true
    · rw [if_pos hm] at h
      cases hda : digitRunAfter ((c :: rest).drop kw.length) with
      | some ds =>
        rw [hda] at h
        injection h with h
        subst h
        exact digitRunAfter_sound _ _ hda
      | none =>
        rw [hda] at h
        exact ih s h
    · rw [if_neg hm] at h
      exact ih s h

theorem extract_from_body_sound :
    ∀ (body s : List Char), extract_from_body body = some s →
      s ≠ [] ∧ ∀ c ∈ s, c.isDigit = true := by
  intro body s h
  unfold extract_from_body at h
  cases h6 : findRun 6 body with
  | some s6 =>
    rw [h6] at h
    injection h with h
    subst h
    have := findRun_sound 6 body s6 h6
    exact ⟨by intro hnil; rw [hnil] at this; simp at this, this.2⟩
  | none =>
    rw [h6] at h
    cases h4 : findRun 4 body with
    | some s4 =>
      rw [h4] at h
      injection h with h
      subst h
      have := findRun_sound 4 body s4 h4
      exact ⟨by intro hnil; rw [hnil] at this; simp at this, this.2⟩
    | none =>
      rw [h4] at h
      cases hkod : findKeywordCode kodChars body with
      | some sk =>
        rw [hkod] at h
        injection h with h
        subst h
        exact findKeywordCode_sound _ _ _ hkod
      | none =>
        rw [hkod] at h
        exact findKeywordCode_sound _ _ _ h

theorem extractFromParts_sound :
    ∀ (bodies : List (List Char)) (s : List Char), extractFromParts bodies = some s →
      s ≠ [] ∧ ∀ c ∈ s, c.isDigit = true := by
  intro bodies
  induction bodies with
  | nil => intro s h; simp [extractFromParts] at h
  | cons b rest ih =>
    intro s h
    simp only [extractFromParts] at h
    cases hb : extract_from_body b with
    | some sb =>
      rw [hb] at h
      injection h with h
      subst h
      exact extract_from_body_sound _ _ hb
    | none =>
      rw [hb] at h
      exact ih s h

theorem otpGo_result_sound (b : Nat → AttemptBehaviour) (ri : Nat) :
    ∀ (rem attempt : Nat) (s : List Char), (otpGo b ri attempt rem).result = some s →
      s ≠ [] ∧ ∀ c ∈ s, c.isDigit = true := by
  intro rem
  induction rem with
  | zero => intro attempt s h; simp [otpGo] at h
  | succ m ih =>
    intro attempt s h
    cases hb : b attempt with
    | ok bodies =>
      cases hx : extractFromParts bodies with
      | some code =>
        simp only [otpGo, hb, hx, Option.some.injEq] at h
        subst h
        exact extractFromParts_sound _ _ hx
      | none =>
        simp only [otpGo, hb, hx] at h
        exact ih (attempt + 1) s h
    | err af =>
      simp only [otpGo, hb] at h
      exact ih (attempt + 1) s h

theorem takeWhile_digit_replicate (m : Nat) :
    (List.replicate m '7').takeWhile Char.isDigit = List.replicate m '7' := by
  induction m with
  | zero => simp
  | succ k ih =>
    rw [List.replicate_succ, List.takeWhile_cons, if_pos (by decide), ih]

theorem digitRunAfter_sevens (m : Nat) :
    digitRunAfter ('7' :: List.replicate m '7') = some ('7' :: List.replicate m '7') := by
  have h1 : ('7' :: List.replicate m '7').dropWhile (fun c => !c.isDigit) =
      '7' :: List.replicate m '7' := by
    rw [List.dropWhile_cons, if_neg (by decide)]
  have h2 : ('7' :: List.replicate m '7').takeWhile Char.isDigit =
      '7' :: List.replicate m '7' := by
    rw [List.takeWhile_eq_self_iff]
    intro x hx
    rw [List.mem_cons] at hx
    rcases hx with rfl | hx
    · decide
    · rw [List.eq_of_mem_replicate hx]; decide
  unfold digitRunAfter
  rw [h1]
  show some (('7' :: List.replicate m '7').takeWhile Char.isDigit) =
    some ('7' :: List.replicate m '7')
  rw [h2]

theorem findKeywordCode_kod_sevens (m : Nat) :
    findKeywordCode kodChars ('к' :: 'о' :: 'д' :: '7' :: List.replicate m '7') =
      some ('7' :: List.replicate m '7') := by
  have hmk : matchKeyword kodChars ('к' :: 'о' :: 'д' :: '7' :: List.replicate m '7') = true := rfl
  simp only [findKeywordCode, hmk, if_true]
  have hdrop : ('о' :: 'д' :: '7' :: List.replicate m '7').drop kodChars.length =
      List.replicate m '7' := rfl
  rw [show (('к' :: 'о' :: 'д' :: '7' :: List.replicate m '7').drop kodChars.length) =
      '7' :: List.replicate m '7' from rfl]
  rw [digitRunAfter_sevens]

theorem findKeywordCode_code_sevens (m : Nat) :
    findKeywordCode codeChars ('c' :: 'o' :: 'd' :: 'e' :: '7' :: List.replicate m '7') =
      some ('7' :: List.replicate m '7') := by
  have hmk : matchKeyword codeChars ('c' :: 'o' :: 'd' :: 'e' :: '7' :: List.replicate m '7') =
      true := rfl
  simp only [findKeywordCode, hmk, if_true]
  rw [show (('c' :: 'o' :: 'd' :: 'e' :: '7' :: List.replicate m '7').drop codeChars.length) =
      '7' :: List.replicate m '7' from rfl]
  rw [digitRunAfter_sevens]

/-!
## Claims C3, C4, C10
-/

/-- Claim C3: within each body part the tiers are applied in strict
priority order, six-digit run, four-digit run, localized keyword, English
keyword, returning on the first match; in particular a body containing both
a six-digit run and a four-digit run yields the six-digit value, wherever
the four-digit run sits. -/
theorem C3_otp_tier_priority :
    (∀ body : List Char,
        (∃ l m r : List Char, body = l ++ (m ++ r) ∧ m.length = 6 ∧ ∀ c ∈ m, c.isDigit = true) →
        (∃ l m r : List Char, body = l ++ (m ++ r) ∧ m.length = 4 ∧ ∀ c ∈ m, c.isDigit = true) →
        ∃ s, findRun 6 body = some s ∧ extract_from_body body = some s ∧
          s.length = 6 ∧ ∀ c ∈ s, c.isDigit = true) ∧
    (∀ (body s : List Char), findRun 6 body = some s → extract_from_body body = some s) ∧
    (∀ (body s : List Char), findRun 6 body = none → findRun 4 body = some s →
        extract_from_body body = some s) ∧
    (∀ (body s : List Char), findRun 6 body = none → findRun 4 body = none →
        findKeywordCode kodChars body = some s → extract_from_body body = some s) ∧
    (∀ body : List Char, findRun 6 body = none → findRun 4 body = none →
        findKeywordCode kodChars body = none →
        extract_from_body body = findKeywordCode codeChars body) := by
  refine ⟨?_, ?_, ?_, ?_, ?_⟩
  · intro body h6 _
    obtain ⟨l, m, r, rfl, hm, hd⟩ := h6
    obtain ⟨s, hs⟩ := findRun_exists 6 (by omega) l m r hm hd
    have hsound := findRun_sound 6 _ s hs
    exact ⟨s, hs, by unfold extract_from_body; rw [hs], hsound.1, hsound.2⟩
  · intro body s h6
    unfold extract_from_body
    rw [h6]
  · intro body s h6 h4
    unfold extract_from_body
    rw [h6, h4]
  · intro body s h6 h4 hk
    unfold extract_from_body
    rw [h6, h4, hk]
  · intro body h6 h4 hk
    unfold extract_from_body
    rw [h6, h4, hk]

/-- Witness for C3 at the body 1234 ab 567890, where the four-digit run
comes first in the text and the six-digit value is still returned. -/
theorem C3_otp_tier_priority_witness :
    ∃ s, findRun 6 ("1234 ab 567890".data) = some s ∧
      extract_from_body ("1234 ab 567890".data) = some s ∧
      s.length = 6 ∧ ∀ c ∈ s, c.isDigit = true :=
  C3_otp_tier_priority.1 _
    ⟨"1234 ab ".data, "567890".data, [], by decide, by decide, by decide⟩
    ⟨[], "1234".data, " ab 567890".data, by decide, by decide, by decide⟩

/-- Claim C4: the phone number is normalized before entry: the concrete
pair of examples of the spec, the general rules (a number already starting
with a plus is unchanged; a number starting with eight or nine becomes the
plus-seven prefix applied to the last ten characters), and the fact that
whenever login_to_ozon fills the phone field it types exactly the
normalized number. -/
theorem C4_phone_normalization :
    format_phone "89991234567" = "+79991234567" ∧
    format_phone "+79991234567" = "+79991234567" ∧
    (∀ s : String, s.data.head? = some '+' → format_phone s = s) ∧
    (∀ (s : String) (c : Char) (rest : List Char), s.data = c :: rest →
        (c = '8' ∨ c = '9') → format_phone s = String.mk ('+' :: '7' :: lastN 10 s.data)) ∧
    (∀ (env : LoginEnv) (p : String) (i : Nat),
        (login_to_ozon env p i).enteredPhone ≠ none →
        (login_to_ozon env p i).enteredPhone = some (format_phone p)) := by
  refine ⟨by decide, by decide, ?_, ?_, ?_⟩
  · intro s h
    unfold format_phone
    cases hs : s.data with
    | nil => rfl
    | cons c rest =>
      rw [hs] at h
      simp at h
      dsimp only
      rw [if_pos h]
  · intro s c rest hs hc
    unfold format_phone
    rw [hs]
    dsimp only
    have hplus : ¬ c = '+' := by
      rcases hc with rfl | rfl <;> decide
    rw [if_neg hplus]
    have h98 : (c = '9' || c = '8') = true := by
      rcases hc with rfl | rfl <;> decide
    rw [if_pos h98]
  · intro env p i h
    cases hn1 : env.nav1Ozon <;> cases hn2 : env.nav2Ozon <;>
      cases hph : env.phoneInputFound <;> cases hotp : env.otpFieldFound <;>
        rcases hx : (extract_otp_from_email env.mailbox 8 5).result with _ | code <;>
          cases hsi : env.successIndicatorFound <;> cases hurl : env.finalUrlOzon <;>
            simp_all [login_to_ozon]

/-- Witness for C4 at a concrete login environment and the concrete input
of the spec example: the phone field receives the normalized number. -/
theorem C4_phone_normalization_witness :
    (login_to_ozon otpTimeoutLenv "89991234567" 0).enteredPhone =
      some (format_phone "89991234567") :=
  C4_phone_normalization.2.2.2.2 otpTimeoutLenv "89991234567" 0 (by decide)

/-- Claim C10: every code the extractor returns is a non-empty list of
decimal digits; the keyword tiers return the full digit run after the
keyword, of any length, so the result is not guaranteed to be four or six
digits long. -/
theorem C10_result_digits :
    (∀ (b : Nat → AttemptBehaviour) (mr ri : Nat) (s : List Char),
        (extract_otp_from_email b mr ri).result = some s →
        s ≠ [] ∧ ∀ c ∈ s, c.isDigit = true) ∧
    (∀ n : Nat, 1 ≤ n →
        findKeywordCode kodChars ('к' :: 'о' :: 'д' :: List.replicate n '7') =
          some (List.replicate n '7')) ∧
    (∀ n : Nat, 1 ≤ n →
        findKeywordCode codeChars ('c' :: 'o' :: 'd' :: 'e' :: List.replicate n '7') =
          some (List.replicate n '7')) ∧
    (∃ (b : Nat → AttemptBehaviour) (s : List Char),
        (extract_otp_from_email b 1 0).result = some s ∧ s.length ≠ 4 ∧ s.length ≠ 6) := by
  refine ⟨?_, ?_, ?_, ?_⟩
  · intro b mr ri s h
    exact otpGo_result_sound b ri mr 0 s h
  · intro n hn
    obtain ⟨m, rfl⟩ : ∃ m, n = m + 1 := ⟨n - 1, by omega⟩
    rw [List.replicate_succ]
    exact findKeywordCode_kod_sevens m
  · intro n hn
    obtain ⟨m, rfl⟩ : ∃ m, n = m + 1 := ⟨n - 1, by omega⟩
    rw [List.replicate_succ]
    exact findKeywordCode_code_sevens m
  · exact ⟨fun _ => AttemptBehaviour.ok [['к', 'о', 'д', ' ', '1', '2', '3']],
      ['1', '2', '3'], by decide, by decide, by decide⟩

/-- Witness for C10 at a mailbox delivering the body kod-space-123: the
returned code is the non-empty digit list 123. -/
theorem C10_result_digits_witness :
    (['1', '2', '3'] : List Char) ≠ [] ∧
      ∀ c ∈ (['1', '2', '3'] : List Char), c.isDigit = true :=
  C10_result_digits.1 (fun _ => AttemptBehaviour.ok [['к', 'о', 'д', ' ', '1', '2', '3']]) 1 0
    ['1', '2', '3'] (by decide)

/-!
## Lemmas about the retry loop
-/

theorem countP_sleep_ite (ri m : Nat) :
    List.countP isSleepEv (if m = 0 then ([] : List MEvent) else [MEvent.sleep ri]) =
      if m = 0 then 0 else 1 := by
  rcases Nat.eq_zero_or_pos m with rfl | hm
  · simp
  · rw [if_neg (by omega), if_neg (by omega)]
    simp [List.countP_cons, isSleepEv]

theorem mem_sleep_ite (ri m : Nat) (ev : MEvent)
    (h : ev ∈ (if m = 0 then ([] : List MEvent) else [MEvent.sleep ri])) :
    ev = MEvent.sleep ri := by
  rcases Nat.eq_zero_or_pos m with rfl | hm
  · simp at h
  · rw [if_neg (by omega)] at h
    simpa using h

theorem otpGo_exhaust (b : Nat → AttemptBehaviour) (ri : Nat) :
    ∀ (rem attempt : Nat),
      (∀ k, k < rem → attemptYield (b (attempt + k)) = none) →
      (otpGo b ri attempt rem).result = none ∧
      (otpGo b ri attempt rem).events.length = rem ∧
      (otpGo b ri attempt rem).events.flatten.countP isSleepEv = rem - 1 ∧
      (∀ ev ∈ (otpGo b ri attempt rem).events.flatten,
          isSleepEv ev = true → ev = MEvent.sleep ri) := by
  intro rem
  induction rem with
  | zero => intro attempt h; simp [otpGo]
  | succ m ih =>
    intro attempt h
    have h0 : attemptYield (b attempt) = none := by
      simpa using h 0 (Nat.succ_pos m)
    have hrest := ih (attempt + 1) (fun k hk => by
      have h1 := h (k + 1) (by omega)
      have h2 : attempt + (k + 1) = attempt + 1 + k := by omega
      rwa [h2] at h1)
    cases hb : b attempt with
    | ok bodies =>
      have hx : extractFromParts bodies = none := by
        rw [hb] at h0
        simpa [attemptYield] using h0
      simp only [otpGo, hb, hx]
      refine ⟨hrest.1, ?_, ?_, ?_⟩
      · simp [hrest.2.1]
      · simp only [List.flatten_cons, List.countP_append]
        have hh : List.countP isSleepEv [MEvent.connect, MEvent.close, MEvent.logout] = 0 := by
          decide
        rw [hh, countP_sleep_ite ri m, hrest.2.2.1]
        rcases Nat.eq_zero_or_pos m with rfl | hm
        · simp
        · rw [if_neg (by omega)]
          omega
      · intro ev hev hsl
        simp only [List.flatten_cons, List.mem_append] at hev
        rcases hev with (hev | hev) | hev
        · have hf : ∀ e ∈ [MEvent.connect, MEvent.close, MEvent.logout],
              isSleepEv e = false := by decide
          rw [hf ev hev] at hsl
          cases hsl
        · exact mem_sleep_ite ri m ev hev
        · exact hrest.2.2.2 ev hev hsl
    | err af =>
      simp only [otpGo, hb]
      refine ⟨hrest.1, ?_, ?_, ?_⟩
      · simp [hrest.2.1]
      · simp only [List.flatten_cons, List.countP_append]
        have hh : List.countP isSleepEv (if af = true then [MEvent.connect] else []) = 0 := by
          cases af <;> decide
        rw [hh, countP_sleep_ite ri m, hrest.2.2.1]
        rcases Nat.eq_zero_or_pos m with rfl | hm
        · simp
        · rw [if_neg (by omega)]
          omega
      · intro ev hev hsl
        simp only [List.flatten_cons, List.mem_append] at hev
        rcases hev with (hev | hev) | hev
        · have hf : ∀ e ∈ (if af = true then [MEvent.connect] else ([] : List MEvent)),
              isSleepEv e = false := by cases af <;> decide
          rw [hf ev hev] at hsl
          cases hsl
        · exact mem_sleep_ite ri m ev hev
        · exact hrest.2.2.2 ev hev hsl

theorem otpGo_success (b : Nat → AttemptBehaviour) (ri : Nat) :
    ∀ (j rem attempt : Nat) (c : List Char), j < rem →
      (∀ k, k < j → attemptYield (b (attempt + k)) = none) →
      attemptYield (b (attempt + j)) = some c →
      (otpGo b ri attempt rem).result = some c ∧
      (otpGo b ri attempt rem).events.length = j + 1 ∧
      (otpGo b ri attempt rem).events.flatten.countP isSleepEv = j ∧
      (∀ ev ∈ (otpGo b ri attempt rem).events.flatten,
          isSleepEv ev = true → ev = MEvent.sleep ri) := by
  intro j
  induction j with
  | zero =>
    intro rem attempt c hlt hpre hat
    obtain ⟨m, rfl⟩ : ∃ m, rem = m + 1 := ⟨rem - 1, by omega⟩
    rw [Nat.add_zero] at hat
    cases hb : b attempt with
    | err af =>
      rw [hb] at hat
      simp [attemptYield] at hat
    | ok bodies =>
      rw [hb] at hat
      have hx : extractFromParts bodies = some c := by simpa [attemptYield] using hat
      simp [otpGo, hb, hx, isSleepEv, List.countP_cons]
  | succ n ih =>
    intro rem attempt c hlt hpre hat
    obtain ⟨m, rfl⟩ : ∃ m, rem = m + 1 := ⟨rem - 1, by omega⟩
    have hm : n < m := by omega
    have h0 : attemptYield (b attempt) = none := by
      simpa using hpre 0 (Nat.succ_pos n)
    have hat' : attemptYield (b (attempt + 1 + n)) = some c := by
      have h2 : attempt + (n + 1) = attempt + 1 + n := by omega
      rwa [h2] at hat
    have hpre' : ∀ k, k < n → attemptYield (b (attempt + 1 + k)) = none := fun k hk => by
      have h1 := hpre (k + 1) (by omega)
      have h2 : attempt + (k + 1) = attempt + 1 + k := by omega
      rwa [h2] at h1
    have hrest := ih m (attempt + 1) c hm hpre' hat'
    have hmz : ¬ m = 0 := by omega
    cases hb : b attempt with
    | ok bodies =>
      have hx : extractFromParts bodies = none := by
        rw [hb] at h0
        simpa [attemptYield] using h0
      simp only [otpGo, hb, hx]
      refine ⟨hrest.1, ?_, ?_, ?_⟩
      · simp [hrest.2.1]
      · simp only [List.flatten_cons, List.countP_append]
        have hh : List.countP isSleepEv [MEvent.connect, MEvent.close, MEvent.logout] = 0 := by
          decide
        rw [hh, countP_sleep_ite ri m, hrest.2.2.1, if_neg hmz]
        omega
      · intro ev hev hsl
        simp only [List.flatten_cons, List.mem_append] at hev
        rcases hev with (hev | hev) | hev
        · have hf : ∀ e ∈ [MEvent.connect, MEvent.close, MEvent.logout],
              isSleepEv e = false := by decide
          rw [hf ev hev] at hsl
          cases hsl
        · exact mem_sleep_ite ri m ev hev
        · exact hrest.2.2.2 ev hev hsl
    | err af =>
      simp only [otpGo, hb]
      refine ⟨hrest.1, ?_, ?_, ?_⟩
      · simp [hrest.2.1]
      · simp only [List.flatten_cons, List.countP_append]
        have hh : List.countP isSleepEv (if af = true then [MEvent.connect] else []) = 0 := by
          cases af <;> decide
        rw [hh, countP_sleep_ite ri m, hrest.2.2.1, if_neg hmz]
        omega
      · intro ev hev hsl
        simp only [List.flatten_cons, List.mem_append] at hev
        rcases hev with (hev | hev) | hev
        · have hf : ∀ e ∈ (if af = true then [MEvent.connect] else ([] : List MEvent)),
              isSleepEv e = false := by cases af <;> decide
          rw [hf ev hev] at hsl
          cases hsl
        · exact mem_sleep_ite ri m ev hev
        · exact hrest.2.2.2 ev hev hsl

theorem otpGo_none_length (b : Nat → AttemptBehaviour) (ri : Nat) :
    ∀ (rem attempt : Nat), (otpGo b ri attempt rem).result = none →
      (otpGo b ri attempt rem).events.length = rem := by
  intro rem
  induction rem with
  | zero => intro attempt _; simp [otpGo]
  | succ m ih =>
    intro attempt h
    cases hb : b attempt with
    | ok bodies =>
      cases hx : extractFromParts bodies with
      | some code => simp [otpGo, hb, hx] at h
      | none =>
        simp only [otpGo, hb, hx] at h ⊢
        simp [ih (attempt + 1) h]
    | err af =>
      simp only [otpGo, hb] at h ⊢
      simp [ih (attempt + 1) h]

theorem otpGo_length_ge (b : Nat → AttemptBehaviour) (ri : Nat) :
    ∀ (j rem attempt : Nat), j < rem →
      (∀ k, k < j → attemptYield (b (attempt + k)) = none) →
      j + 1 ≤ (otpGo b ri attempt rem).events.length := by
  intro j
  induction j with
  | zero =>
    intro rem attempt hlt _
    obtain ⟨m, rfl⟩ : ∃ m, rem = m + 1 := ⟨rem - 1, by omega⟩
    cases hb : b attempt with
    | ok bodies =>
      cases hx : extractFromParts bodies with
      | some code => simp [otpGo, hb, hx]
      | none => simp [otpGo, hb, hx]
    | err af => simp [otpGo, hb]
  | succ n ih =>
    intro rem attempt hlt hpre
    obtain ⟨m, rfl⟩ : ∃ m, rem = m + 1 := ⟨rem - 1, by omega⟩
    have h0 : attemptYield (b attempt) = none := by
      simpa using hpre 0 (Nat.succ_pos n)
    have hpre' : ∀ k, k < n → attemptYield (b (attempt + 1 + k)) = none := fun k hk => by
      have h1 := hpre (k + 1) (by omega)
      have h2 : attempt + (k + 1) = attempt + 1 + k := by omega
      rwa [h2] at h1
    have hih := ih m (attempt + 1) (by omega) hpre'
    cases hb : b attempt with
    | ok bodies =>
      have hx : extractFromParts bodies = none := by
        rw [hb] at h0
        simpa [attemptYield] using h0
      simp only [otpGo, hb, hx]
      simp only [List.length_cons]
      omega
    | err af =>
      simp only [otpGo, hb]
      simp only [List.length_cons]
      omega

theorem otpGo_get_ok (b : Nat → AttemptBehaviour) (ri : Nat) :
    ∀ (n rem attempt : Nat) (x : List MEvent) (bodies : List (List Char)),
      (otpGo b ri attempt rem).events[n]? = some x →
      b (attempt + n) = AttemptBehaviour.ok bodies →
      x.take 3 = [MEvent.connect, MEvent.close, MEvent.logout] := by
  intro n
  induction n with
  | zero =>
    intro rem attempt x bodies hx hb
    cases rem with
    | zero => simp [otpGo] at hx
    | succ m =>
      rw [Nat.add_zero] at hb
      cases hx2 : extractFromParts bodies with
      | some code =>
        simp only [otpGo, hb, hx2, List.getElem?_cons_zero, Option.some.injEq] at hx
        subst hx
        rfl
      | none =>
        simp only [otpGo, hb, hx2, List.getElem?_cons_zero, Option.some.injEq] at hx
        subst hx
        rcases Nat.eq_zero_or_pos m with rfl | hm
        · rfl
        · rw [if_neg (by omega)]
          rfl
  | succ k ih =>
    intro rem attempt x bodies hx hb
    cases rem with
    | zero => simp [otpGo] at hx
    | succ m =>
      have hb' : b (attempt + 1 + k) = AttemptBehaviour.ok bodies := by
        have h2 : attempt + 1 + k = attempt + (k + 1) := by omega
        rw [h2]
        exact hb
      cases hba : b attempt with
      | ok bodies0 =>
        cases hx2 : extractFromParts bodies0 with
        | some code =>
          simp only [otpGo, hba, hx2] at hx
          simp at hx
        | none =>
          simp only [otpGo, hba, hx2, List.getElem?_cons_succ] at hx
          exact ih m (attempt + 1) x bodies hx hb'
      | err af =>
        simp only [otpGo, hba, List.getElem?_cons_succ] at hx
        exact ih m (attempt + 1) x bodies hx hb'

theorem otpGo_get_err_noclose (b : Nat → AttemptBehaviour) (ri : Nat) :
    ∀ (n rem attempt : Nat) (x : List MEvent) (af : Bool),
      (otpGo b ri attempt rem).events[n]? = some x →
      b (attempt + n) = AttemptBehaviour.err af →
      MEvent.close ∉ x ∧ MEvent.logout ∉ x := by
  intro n
  induction n with
  | zero =>
    intro rem attempt x af hx hb
    cases rem with
    | zero => simp [otpGo] at hx
    | succ m =>
      rw [Nat.add_zero] at hb
      simp only [otpGo, hb, List.getElem?_cons_zero, Option.some.injEq] at hx
      subst hx
      constructor <;> intro hmem <;>
        rcases List.mem_append.mp hmem with h2 | h2
      · cases af <;> simp at h2
      · rcases Nat.eq_zero_or_pos m with rfl | hm
        · simp at h2
        · rw [if_neg (by omega)] at h2
          simp at h2
      · cases af <;> simp at h2
      · rcases Nat.eq_zero_or_pos m with rfl | hm
        · simp at h2
        · rw [if_neg (by omega)] at h2
          simp at h2
  | succ k ih =>
    intro rem attempt x af hx hb
    cases rem with
    | zero => simp [otpGo] at hx
    | succ m =>
      have hb' : b (attempt + 1 + k) = AttemptBehaviour.err af := by
        have h2 : attempt + 1 + k = attempt + (k + 1) := by omega
        rw [h2]
        exact hb
      cases hba : b attempt with
      | ok bodies0 =>
        cases hx2 : extractFromParts bodies0 with
        | some code =>
          simp only [otpGo, hba, hx2] at hx
          simp at hx
        | none =>
          simp only [otpGo, hba, hx2, List.getElem?_cons_succ] at hx
          exact ih m (attempt + 1) x af hx hb'
      | err af0 =>
        simp only [otpGo, hba, List.getElem?_cons_succ] at hx
        exact ih m (attempt + 1) x af hx hb'

theorem otpGo_get_err_sleep (b : Nat → AttemptBehaviour) (ri : Nat) :
    ∀ (n rem attempt : Nat) (x : List MEvent) (af : Bool),
      (otpGo b ri attempt rem).events[n]? = some x →
      b (attempt + n) = AttemptBehaviour.err af →
      n + 1 < rem →
      MEvent.sleep ri ∈ x := by
  intro n
  induction n with
  | zero =>
    intro rem attempt x af hx hb hlt
    cases rem with
    | zero => simp [otpGo] at hx
    | succ m =>
      rw [Nat.add_zero] at hb
      simp only [otpGo, hb, List.getElem?_cons_zero, Option.some.injEq] at hx
      subst hx
      have hits : (if m = 0 then ([] : List MEvent) else [MEvent.sleep ri]) =
          [MEvent.sleep ri] := by
        rw [if_neg (by omega)]
      rw [hits]
      simp
  | succ k ih =>
    intro rem attempt x af hx hb hlt
    cases rem with
    | zero => simp [otpGo] at hx
    | succ m =>
      have hb' : b (attempt + 1 + k) = AttemptBehaviour.err af := by
        have h2 : attempt + 1 + k = attempt + (k + 1) := by omega
        rw [h2]
        exact hb
      cases hba : b attempt with
      | ok bodies0 =>
        cases hx2 : extractFromParts bodies0 with
        | some code =>
          simp only [otpGo, hba, hx2] at hx
          simp at hx
        | none =>
          simp only [otpGo, hba, hx2, List.getElem?_cons_succ] at hx
          exact ih m (attempt + 1) x af hx hb' (by omega)
      | err af0 =>
        simp only [otpGo, hba, List.getElem?_cons_succ] at hx
        exact ih m (attempt + 1) x af hx hb' (by omega)

/-!
## Claims C2, C6, C7
-/

/-- Claim C2: with max_retries at least one, when the first attempt that
yields a code is attempt N (with N at most max_retries) the extractor
returns that code after exactly N attempts, with exactly N minus one
sleeps, each of the configured interval; when no attempt ever yields a
code it makes exactly max_retries attempts and returns none; and a none
result is returned only after the full budget of max_retries attempts. -/
theorem C2_otp_retry_budget (mr ri : Nat) (hmr : 1 ≤ mr) :
    (∀ (b : Nat → AttemptBehaviour) (N : Nat) (c : List Char),
        1 ≤ N → N ≤ mr →
        (∀ k, k < N - 1 → attemptYield (b k) = none) →
        attemptYield (b (N - 1)) = some c →
        (extract_otp_from_email b mr ri).result = some c ∧
        (extract_otp_from_email b mr ri).events.length = N ∧
        (extract_otp_from_email b mr ri).events.flatten.countP isSleepEv = N - 1 ∧
        (∀ ev ∈ (extract_otp_from_email b mr ri).events.flatten,
            isSleepEv ev = true → ev = MEvent.sleep ri)) ∧
    (∀ b : Nat → AttemptBehaviour,
        (∀ k, k < mr → attemptYield (b k) = none) →
        (extract_otp_from_email b mr ri).result = none ∧
        (extract_otp_from_email b mr ri).events.length = mr) ∧
    (∀ b : Nat → AttemptBehaviour,
        (extract_otp_from_email b mr ri).result = none →
        (extract_otp_from_email b mr ri).events.length = mr) := by
  refine ⟨?_, ?_, ?_⟩
  · intro b N c hN hNmr hpre hat
    have h := otpGo_success b ri (N - 1) mr 0 c (by omega)
      (fun k hk => by simpa using hpre k hk)
      (by simpa using hat)
    have hN1 : N - 1 + 1 = N := by omega
    rw [hN1] at h
    exact h
  · intro b hall
    have h := otpGo_exhaust b ri mr 0 (fun k hk => by simpa using hall k hk)
    exact ⟨h.1, h.2.1⟩
  · intro b h
    exact otpGo_none_length b ri mr 0 h

/-- Witness for C2: a mailbox with no code on attempt one and a six-digit
code on attempt two, with the source defaults of eight retries and a
five-second interval. -/
theorem C2_otp_retry_budget_witness :
    (extract_otp_from_email secondTryMailbox 8 5).result =
        some ['1', '2', '3', '4', '5', '6'] ∧
    (extract_otp_from_email secondTryMailbox 8 5).events.length = 2 ∧
    (extract_otp_from_email secondTryMailbox 8 5).events.flatten.countP isSleepEv = 2 - 1 ∧
    (∀ ev ∈ (extract_otp_from_email secondTryMailbox 8 5).events.flatten,
        isSleepEv ev = true → ev = MEvent.sleep 5) :=
  (C2_otp_retry_budget 8 5 (by decide)).1 secondTryMailbox 2 ['1', '2', '3', '4', '5', '6']
    (by decide) (by decide)
    (fun k hk => by
      have hk0 : k = 0 := by omega
      subst hk0
      decide)
    (by decide)

/-- Counterexample for C6: the claim that every attempt, including one
aborted by a mailbox-protocol error, ends with the session closed and
logged out is false: with a behaviour that raises after the session is
open, the attempt records a session open and no close and no logout. -/
theorem C6_close_after_attempt_cex :
    ¬ (∀ (b : Nat → AttemptBehaviour) (mr ri : Nat),
        ∀ a ∈ (extract_otp_from_email b mr ri).events,
          MEvent.connect ∈ a → MEvent.close ∈ a ∧ MEvent.logout ∈ a) := by
  intro h
  have := h alwaysErrAfterConnect 1 5 [MEvent.connect] (by decide) (by decide)
  exact absurd this.1 (by decide)

/-- Claim C6 as amended: an attempt that completes its mailbox search
(whether it returns a code or finds none) begins with session open, close,
logout; an attempt aborted by a mailbox-protocol error performs no close
and no logout at all. -/
theorem C6_close_after_attempt_amended (b : Nat → AttemptBehaviour) (mr ri n : Nat)
    (x : List MEvent)
    (hx : (extract_otp_from_email b mr ri).events[n]? = some x) :
    (∀ bodies, b n = AttemptBehaviour.ok bodies →
        x.take 3 = [MEvent.connect, MEvent.close, MEvent.logout]) ∧
    (∀ af, b n = AttemptBehaviour.err af →
        MEvent.close ∉ x ∧ MEvent.logout ∉ x) := by
  constructor
  · intro bodies hb
    exact otpGo_get_ok b ri n mr 0 x bodies hx (by simpa using hb)
  · intro af hb
    exact otpGo_get_err_noclose b ri n mr 0 x af hx (by simpa using hb)

/-- Witness for the amended C6: the completed second attempt of the
two-try mailbox opens, closes and logs out in order. -/
theorem C6_close_after_attempt_amended_witness :
    ([MEvent.connect, MEvent.close, MEvent.logout, MEvent.sleep 5] : List MEvent).take 3 =
      [MEvent.connect, MEvent.close, MEvent.logout] :=
  (C6_close_after_attempt_amended secondTryMailbox 8 5 0
      [MEvent.connect, MEvent.close, MEvent.logout, MEvent.sleep 5] (by decide)).1
    [] (by decide)

/-- Claim C7: a mailbox-protocol error in an attempt is caught there and
does not abort extraction: when the erroring attempt is attempt n (zero
based) with further retries in the budget, the run goes on to at least one
more attempt, the erroring attempt sleeps the configured interval, and a
none result is returned only once the events show all max_retries attempts
were made. -/
theorem C7_mail_error_retry (b : Nat → AttemptBehaviour) (mr ri n : Nat)
    (hpre : ∀ k, k < n → attemptYield (b k) = none)
    (herr : ∃ af, b n = AttemptBehaviour.err af)
    (hn : n + 1 < mr) :
    n + 2 ≤ (extract_otp_from_email b mr ri).events.length ∧
    (∃ x, (extract_otp_from_email b mr ri).events[n]? = some x ∧ MEvent.sleep ri ∈ x) ∧
    ((extract_otp_from_email b mr ri).result = none →
      (extract_otp_from_email b mr ri).events.length = mr) := by
  obtain ⟨af, hb⟩ := herr
  have hyield : attemptYield (b n) = none := by
    rw [hb]
    rfl
  have hlen : n + 2 ≤ (extract_otp_from_email b mr ri).events.length := by
    have := otpGo_length_ge b ri (n + 1) mr 0 hn (fun k hk => by
      rcases Nat.lt_or_ge k n with h | h
      · simpa using hpre k h
      · have hkn : k = n := by omega
        subst hkn
        simpa using hyield)
    simpa [extract_otp_from_email] using this
  refine ⟨hlen, ?_, ?_⟩
  · have hlt : n < (extract_otp_from_email b mr ri).events.length := by omega
    refine ⟨(extract_otp_from_email b mr ri).events[n], ?_, ?_⟩
    · exact List.getElem?_eq_getElem hlt
    · exact otpGo_get_err_sleep b ri n mr 0 _ af
        (List.getElem?_eq_getElem hlt) (by simpa using hb) hn
  · intro h
    exact otpGo_none_length b ri mr 0 h

/-- Witness for C7: a mailbox raising on attempt one and delivering a code
on attempt two, with the budget of eight. -/
theorem C7_mail_error_retry_witness :
    0 + 2 ≤ (extract_otp_from_email errThenCodeMailbox 8 5).events.length ∧
    (∃ x, (extract_otp_from_email errThenCodeMailbox 8 5).events[0]? = some x ∧
        MEvent.sleep 5 ∈ x) ∧
    ((extract_otp_from_email errThenCodeMailbox 8 5).result = none →
      (extract_otp_from_email errThenCodeMailbox 8 5).events.length = 8) :=
  C7_mail_error_retry errThenCodeMailbox 8 5 0
    (fun k hk => absurd hk (Nat.not_lt_zero k))
    ⟨true, by decide⟩ (by decide)

/-!
## Claims C5 and C8
-/

theorem processAccount_record (r : Record) (e : AccEnv) (i : Nat) (s : RState)
    (h : (login_to_ozon e.lenv r.phone i).cookiesWritten = none) :
    (processAccount r e i s).record = r := by
  unfold processAccount
  split
  · rfl
  · dsimp only
    split
    · rfl
    · split
      · rfl
      · split
        · rfl
        · rw [h]

/-- Claim C5: when the login run reaches the site and the phone field but
the OTP input never appears within its bounded wait, the run returns
failure, saves exactly the error screenshot named with the account index,
writes no cookie value, does not persist the store, and the orchestrator
leaves the account row unchanged. -/
theorem C5_otp_timeout_failed (env : LoginEnv) (i : Nat)
    (hnav : env.nav1Ozon = true ∨ env.nav2Ozon = true)
    (hphone : env.phoneInputFound = true)
    (hotp : env.otpFieldFound = false) :
    (∀ phone : String,
        (login_to_ozon env phone i).success = false ∧
        (login_to_ozon env phone i).screenshots =
          ["error_login_process_" ++ toString i ++ ".png"] ∧
        (login_to_ozon env phone i).cookiesWritten = none ∧
        (login_to_ozon env phone i).persisted = false) ∧
    (∀ (r : Record) (e : AccEnv) (s : RState), e.lenv = env →
        (processAccount r e i s).record = r) := by
  have hlogin : ∀ phone : String,
      login_to_ozon env phone i =
        ⟨false, ["error_login_process_" ++ toString i ++ ".png"],
          some (format_phone phone), none, false⟩ := by
    intro phone
    have hcond : (!env.nav1Ozon && !env.nav2Ozon) = false := by
      rcases hnav with h | h <;> simp [h]
    simp [login_to_ozon, hcond, hphone, hotp]
  constructor
  · intro phone
    rw [hlogin phone]
    exact ⟨rfl, rfl, rfl, rfl⟩
  · intro r e s hle
    apply processAccount_record
    rw [hle, hlogin r.phone]

/-- Witness for C5 at the OTP-timeout environment and account index 7. -/
theorem C5_otp_timeout_failed_witness :
    (login_to_ozon otpTimeoutLenv "89991234567" 7).success = false ∧
    (login_to_ozon otpTimeoutLenv "89991234567" 7).screenshots =
      ["error_login_process_" ++ toString 7 ++ ".png"] ∧
    (login_to_ozon otpTimeoutLenv "89991234567" 7).cookiesWritten = none ∧
    (login_to_ozon otpTimeoutLenv "89991234567" 7).persisted = false :=
  (C5_otp_timeout_failed otpTimeoutLenv 7 (Or.inl rfl) rfl rfl).1 "89991234567"

/-- Counterexample for C8: the claim that on every construction error the
factory removes the partially-created artifact file when one exists fails.
When artifact packaging itself fails after the zip file was opened, a
partial file is on disk but the local path variable is still unset, so the
guard of the except handler skips the removal and the file stays even
though removal would succeed. -/
theorem C8_setup_error_contained_cex :
    ¬ (∀ (e : SetupEnv) (f : SetupFail), setup_try_body e = Except.error f →
        (setup_browser_with_proxy e).browser = false ∧
        (e.exceptRemoveOk = true →
          (setup_browser_with_proxy e).fileExists = false ∧
          (setup_browser_with_proxy e).fileLeaked = false)) := by
  intro h
  have := (h ⟨false, true, true, true, true⟩
      ⟨SetupStage.create, false, true, false⟩ rfl).2 rfl
  exact absurd this.2 (by decide)

/-- Claim C8 as amended: on every construction error the factory
propagates no exception and returns no browser; it removes the artifact
file when the path variable is set (the failure happened after packaging
returned) and the file exists, ignoring a removal failure; a partial file
left by a failure inside artifact packaging itself is not removed, because
the path variable is still unset, and it stays on disk untracked. -/
theorem C8_setup_error_contained_amended (e : SetupEnv) (f : SetupFail)
    (herr : setup_try_body e = Except.error f) :
    setup_browser_with_proxy e =
      ⟨false, f.pluginPathSet, f.pluginPathSet && f.fileExists && !e.exceptRemoveOk,
        f.browserMade, !f.pluginPathSet && f.fileExists⟩ ∧
    (setup_browser_with_proxy e).browser = false ∧
    (f.pluginPathSet = true → e.exceptRemoveOk = true →
      (setup_browser_with_proxy e).fileExists = false) ∧
    (f.pluginPathSet = false → f.fileExists = true →
      (setup_browser_with_proxy e).fileLeaked = true) := by
  have h : setup_browser_with_proxy e =
      ⟨false, f.pluginPathSet, f.pluginPathSet && f.fileExists && !e.exceptRemoveOk,
        f.browserMade, !f.pluginPathSet && f.fileExists⟩ := by
    unfold setup_browser_with_proxy
    rw [herr]
  refine ⟨h, by rw [h], ?_, ?_⟩
  · intro hps hrm
    rw [h, hps, hrm]
    simp
  · intro hps hf
    rw [h, hps, hf]
    simp

/-- Witness for the amended C8 at a factory whose browser start fails: no
browser is returned and the tracked artifact file is removed. -/
theorem C8_setup_error_contained_amended_witness :
    (setup_browser_with_proxy ⟨true, false, false, true, true⟩).browser = false ∧
    (setup_browser_with_proxy ⟨true, false, false, true, true⟩).fileExists = false :=
  ⟨(C8_setup_error_contained_amended ⟨true, false, false, true, true⟩
      ⟨SetupStage.browserInit, true, true, false⟩ rfl).2.1,
   (C8_setup_error_contained_amended ⟨true, false, false, true, true⟩
      ⟨SetupStage.browserInit, true, true, false⟩ rfl).2.2.1 rfl rfl⟩

/-!
## Resource bookkeeping lemmas for the batch loop
-/

theorem quitStep_inv (s : RState) (h : Inv s) : Inv (quitStep s true) := by
  unfold quitStep
  split
  · split
    · rw [if_pos rfl]
      exact ⟨h.1, h.2.1, by simp, h.2.2.2⟩
    · exact h
  · exact h

theorem removeStep_inv (s : RState) (h : Inv s) : Inv (removeStep s true) := by
  unfold removeStep
  split
  · rw [if_pos rfl]
    exact ⟨h.1, h.2.1, h.2.2.1, by simp⟩
  · exact h

theorem quitStep_true_not_alive (s : RState) (h : Inv s) :
    (quitStep s true).curAlive = false := by
  unfold quitStep
  split
  · split
    · rw [if_pos rfl]
    · rename_i h2
      simp at h2
      exact h2
  · rename_i h2
    cases hca : s.curAlive
    · rfl
    · exact absurd (h.2.2.1 hca) h2

theorem removeStep_fields (s : RState) (ok : Bool) :
    (removeStep s ok).curAlive = s.curAlive ∧
    (removeStep s ok).leakedLive = s.leakedLive ∧
    (removeStep s ok).curFile = false ∨ removeStep s ok = s := by
  unfold removeStep
  split
  · split
    · exact Or.inl ⟨rfl, rfl, rfl⟩
    · exact Or.inl ⟨rfl, rfl, rfl⟩
  · exact Or.inr rfl

theorem removeStep_true_not_file (s : RState) (h : Inv s) :
    (removeStep s true).curFile = false := by
  unfold removeStep
  split
  · rw [if_pos rfl]
  · rename_i h2
    cases hcf : s.curFile
    · rfl
    · exact absurd (by simp [h.2.2.2 hcf, hcf]) h2

theorem removeStep_keeps_alive (s : RState) (ok : Bool) :
    (removeStep s ok).curAlive = s.curAlive := by
  unfold removeStep
  split
  · split <;> rfl
  · rfl

theorem Inv_bounds (t : RState) (h : Inv t) :
    liveCount t ≤ 1 ∧ fileCount t ≤ 1 := by
  unfold liveCount fileCount
  rw [h.1, h.2.1]
  constructor
  · cases t.curAlive <;> simp
  · cases t.curFile <;> simp

theorem setup_noleak (e : SetupEnv) (hp : e.postOk = true) :
    (setup_browser_with_proxy e).browserLeaked = false := by
  unfold setup_browser_with_proxy setup_try_body
  cases hc : e.createOk <;> cases hbr : e.browserOk <;> simp [hc, hbr, hp]

theorem setup_nofileleak (e : SetupEnv) (hcp : e.createPartialFile = false) :
    (setup_browser_with_proxy e).fileLeaked = false := by
  unfold setup_browser_with_proxy setup_try_body
  cases hc : e.createOk <;> cases hbr : e.browserOk <;> cases hp : e.postOk <;>
    simp [hc, hbr, hp, hcp]

theorem setup_file_path (e : SetupEnv) :
    (setup_browser_with_proxy e).fileExists = true →
    (setup_browser_with_proxy e).pluginPath = true := by
  unfold setup_browser_with_proxy setup_try_body
  cases hc : e.createOk <;> cases hbr : e.browserOk <;> cases hp : e.postOk <;>
    simp [hc, hbr, hp]

theorem inv_set_dead (t : RState) (h : Inv t) : Inv { t with curAlive := false } :=
  ⟨h.1, h.2.1, by simp, h.2.2.2⟩

theorem processAccount_done (r : Record) (e : AccEnv) (i : Nat) (s : RState)
    (h : doneB r = true) :
    processAccount r e i s = ⟨r, [], [s], s⟩ := by
  unfold processAccount
  rw [if_pos h]

theorem processAccount_inv (r : Record) (e : AccEnv) (i : Nat) (s : RState)
    (hs : Inv s) (hq : e.quitOk = true) (hr : e.removeOk = true)
    (hp : e.setup.postOk = true) (hcp : e.setup.createPartialFile = false) :
    Inv (processAccount r e i s).state ∧
      ∀ t ∈ (processAccount r e i s).points, Inv t := by
  have h1 : Inv (quitStep s e.quitOk) := by
    rw [hq]
    exact quitStep_inv s hs
  have h2 : Inv (removeStep (quitStep s e.quitOk) e.removeOk) := by
    rw [hr]
    exact removeStep_inv _ h1
  have h3 : Inv (⟨(removeStep (quitStep s e.quitOk) e.removeOk).leakedLive +
      (if (setup_browser_with_proxy e.setup).browserLeaked then 1 else 0),
      (removeStep (quitStep s e.quitOk) e.removeOk).leakedFiles +
        (if (setup_browser_with_proxy e.setup).fileLeaked then 1 else 0),
      (setup_browser_with_proxy e.setup).browser,
      (setup_browser_with_proxy e.setup).browser,
      (setup_browser_with_proxy e.setup).fileExists,
      (setup_browser_with_proxy e.setup).pluginPath⟩ : RState) := by
    refine ⟨?_, ?_, fun hca => hca, fun hf => setup_file_path e.setup hf⟩
    · rw [setup_noleak e.setup hp, h2.1]
      simp
    · rw [setup_nofileleak e.setup hcp, h2.2.1]
      simp
  unfold processAccount
  split
  · refine ⟨hs, ?_⟩
    intro t ht
    simp at ht
    subst ht
    exact hs
  · dsimp only
    split
    · refine ⟨h3, ?_⟩
      intro t ht
      simp at ht
      rcases ht with rfl | rfl | rfl
      · exact h1
      · exact h2
      · exact h3
    · split
      · refine ⟨inv_set_dead _ h3, ?_⟩
        intro t ht
        simp at ht
        rcases ht with rfl | rfl | rfl | rfl
        · exact h1
        · exact h2
        · exact h3
        · exact inv_set_dead _ h3
      · split
        · refine ⟨h3, ?_⟩
          intro t ht
          simp at ht
          rcases ht with rfl | rfl | rfl
          · exact h1
          · exact h2
          · exact h3
        · refine ⟨h3, ?_⟩
          intro t ht
          simp at ht
          rcases ht with rfl | rfl | rfl
          · exact h1
          · exact h2
          · exact h3

theorem runAccounts_inv (envs : Nat → AccEnv)
    (hc : ∀ i, (envs i).quitOk = true ∧ (envs i).removeOk = true ∧
      (envs i).setup.postOk = true ∧ (envs i).setup.createPartialFile = false) :
    ∀ (records : List Record) (i0 : Nat) (s : RState), Inv s →
      Inv (runAccounts envs records i0 s).state ∧
      ∀ t ∈ (runAccounts envs records i0 s).trace, Inv t := by
  intro records
  induction records with
  | nil =>
    intro i0 s hs
    refine ⟨hs, ?_⟩
    intro t ht
    simp [runAccounts] at ht
  | cons a rest ih =>
    intro i0 s hs
    have hpa := processAccount_inv a (envs i0) i0 s hs (hc i0).1 (hc i0).2.1
      (hc i0).2.2.1 (hc i0).2.2.2
    have hrest := ih (i0 + 1) (processAccount a (envs i0) i0 s).state hpa.1
    constructor
    · exact hrest.1
    · intro t ht
      simp only [runAccounts] at ht
      rcases List.mem_append.mp ht with h | h
      · exact hpa.2 t h
      · exact hrest.2 t h

theorem runAccounts_cons (envs : Nat → AccEnv) (a : Record) (rest : List Record)
    (i0 : Nat) (s : RState) :
    runAccounts envs (a :: rest) i0 s =
      ⟨(processAccount a (envs i0) i0 s).record ::
          (runAccounts envs rest (i0 + 1) (processAccount a (envs i0) i0 s).state).records,
        (processAccount a (envs i0) i0 s).events ::
          (runAccounts envs rest (i0 + 1) (processAccount a (envs i0) i0 s).state).events,
        (processAccount a (envs i0) i0 s).points ++
          (runAccounts envs rest (i0 + 1) (processAccount a (envs i0) i0 s).state).trace,
        (runAccounts envs rest (i0 + 1) (processAccount a (envs i0) i0 s).state).state⟩ := rfl

theorem runAccounts_done (envs : Nat → AccEnv) :
    ∀ (records : List Record) (i0 : Nat) (s : RState) (i : Nat) (r : Record),
      records[i]? = some r → doneB r = true →
      (runAccounts envs records i0 s).records[i]? = some r ∧
      (runAccounts envs records i0 s).events[i]? = some [] := by
  intro records
  induction records with
  | nil =>
    intro i0 s i r h _
    simp at h
  | cons a rest ih =>
    intro i0 s i r h hdone
    cases i with
    | zero =>
      rw [List.getElem?_cons_zero, Option.some.injEq] at h
      subst h
      rw [runAccounts_cons, processAccount_done a (envs i0) i0 s hdone]
      dsimp only
      rw [List.getElem?_cons_zero, List.getElem?_cons_zero]
      exact ⟨rfl, rfl⟩
    | succ n =>
      rw [List.getElem?_cons_succ] at h
      have hih := ih (i0 + 1) (processAccount a (envs i0) i0 s).state n r h hdone
      rw [runAccounts_cons]
      dsimp only
      rw [List.getElem?_cons_succ, List.getElem?_cons_succ]
      exact hih

/-!
## Claims C1 and C9
-/

/-- Claim C1: a row whose cookies cell is present and non-empty is skipped
by the batch loop: its row is returned unchanged and no operation at all
(no teardown, no session creation, no proxy check, no login run, no
persist) is performed for it; and since the statement holds for every
input list, it holds in particular for a rerun of the batch on the output
of a previous run. -/
theorem C1_batch_skips_done :
    (∀ (records : List Record) (envs : Nat → AccEnv) (fq fr : Bool) (i : Nat) (r : Record),
        records[i]? = some r → doneB r = true →
        (runBatch records envs fq fr).records[i]? = some r ∧
        (runBatch records envs fq fr).events[i]? = some []) ∧
    (∀ (records : List Record) (envs envs2 : Nat → AccEnv) (fq fr fq2 fr2 : Bool)
        (i : Nat) (r : Record),
        (runBatch records envs fq fr).records[i]? = some r → doneB r = true →
        (runBatch (runBatch records envs fq fr).records envs2 fq2 fr2).records[i]? = some r ∧
        (runBatch (runBatch records envs fq fr).records envs2 fq2 fr2).events[i]? = some []) := by
  have hmain : ∀ (records : List Record) (envs : Nat → AccEnv) (fq fr : Bool)
      (i : Nat) (r : Record),
      records[i]? = some r → doneB r = true →
      (runBatch records envs fq fr).records[i]? = some r ∧
      (runBatch records envs fq fr).events[i]? = some [] := by
    intro records envs fq fr i r h hdone
    exact runAccounts_done envs records 0 ⟨0, 0, false, false, false, false⟩ i r h hdone
  exact ⟨hmain, fun records envs envs2 fq fr fq2 fr2 i r h hdone =>
    hmain _ envs2 fq2 fr2 i r h hdone⟩

/-- Witness for C1: a one-row batch whose row already has cookies is
returned unchanged with an empty operation list. -/
theorem C1_batch_skips_done_witness :
    (runBatch [doneRecord] (fun _ => cleanAccEnv) true true).records[0]? = some doneRecord ∧
    (runBatch [doneRecord] (fun _ => cleanAccEnv) true true).events[0]? = some [] :=
  C1_batch_skips_done.1 [doneRecord] (fun _ => cleanAccEnv) true true 0 doneRecord
    rfl (by decide)

/-- Counterexample for C9: the at-most-one claim fails as stated, because
the swallowed artifact removal can fail, leaving the previous file on disk
while the next factory call creates a second one: with two fresh rows, a
failing proxy check and a failing removal, the state after the second
setup holds two artifact files. -/
theorem C9_single_resource_cex :
    ¬ (∀ (records : List Record) (envs : Nat → AccEnv) (fq fr : Bool),
        ∀ t ∈ (runBatch records envs fq fr).trace,
          liveCount t ≤ 1 ∧ fileCount t ≤ 1) := by
  intro h
  have := h [freshRecord, freshRecord] (fun _ => removeFailAccEnv) true true
    ⟨0, 1, true, true, true, true⟩ (by decide)
  exact absurd this.2 (by decide)

/-- Claim C9 as amended: provided every swallowed cleanup call (previous
browser quit, previous artifact removal) succeeds, no factory failure
happens after the browser process started, and no packaging failure leaves
a partial artifact file behind, at every observed point of the batch run
at most one browser session and at most one artifact file exist, and after
the final cleanup none of either is left. -/
theorem C9_single_resource_amended (records : List Record) (envs : Nat → AccEnv)
    (hc : ∀ i, (envs i).quitOk = true ∧ (envs i).removeOk = true ∧
      (envs i).setup.postOk = true ∧ (envs i).setup.createPartialFile = false) :
    (∀ t ∈ (runBatch records envs true true).trace,
        liveCount t ≤ 1 ∧ fileCount t ≤ 1) ∧
    liveCount (runBatch records envs true true).finalState = 0 ∧
    fileCount (runBatch records envs true true).finalState = 0 := by
  have hinit : Inv (⟨0, 0, false, false, false, false⟩ : RState) :=
    ⟨rfl, rfl, by simp, by simp⟩
  have hacc := runAccounts_inv envs hc records 0 ⟨0, 0, false, false, false, false⟩ hinit
  have ht1 : Inv (quitStep
      (runAccounts envs records 0 ⟨0, 0, false, false, false, false⟩).state true) :=
    quitStep_inv _ hacc.1
  have ht2 : Inv (removeStep (quitStep
      (runAccounts envs records 0 ⟨0, 0, false, false, false, false⟩).state true) true) :=
    removeStep_inv _ ht1
  have hdead : (quitStep
      (runAccounts envs records 0 ⟨0, 0, false, false, false, false⟩).state true).curAlive =
        false :=
    quitStep_true_not_alive _ hacc.1
  have hdead2 : (removeStep (quitStep
      (runAccounts envs records 0 ⟨0, 0, false, false, false, false⟩).state true)
        true).curAlive = false := by
    rw [removeStep_keeps_alive]
    exact hdead
  have hnof : (removeStep (quitStep
      (runAccounts envs records 0 ⟨0, 0, false, false, false, false⟩).state true)
        true).curFile = false :=
    removeStep_true_not_file _ ht1
  refine ⟨?_, ?_, ?_⟩
  · intro t ht
    simp only [runBatch] at ht
    rcases List.mem_append.mp ht with h | h
    · exact Inv_bounds t (hacc.2 t h)
    · simp at h
      rcases h with rfl | rfl
      · exact Inv_bounds _ ht1
      · exact Inv_bounds _ ht2
  · show liveCount (removeStep (quitStep
      (runAccounts envs records 0 ⟨0, 0, false, false, false, false⟩).state true) true) = 0
    unfold liveCount
    rw [ht2.1, hdead2]
    simp
  · show fileCount (removeStep (quitStep
      (runAccounts envs records 0 ⟨0, 0, false, false, false, false⟩).state true) true) = 0
    unfold fileCount
    rw [ht2.2.1, hnof]
    simp

/-- Witness for the amended C9: a one-row batch under fully clean cleanup
behaviour keeps at most one session and one artifact at every point and
ends with none of either. -/
theorem C9_single_resource_amended_witness :
    (∀ t ∈ (runBatch [freshRecord] (fun _ => cleanAccEnv) true true).trace,
        liveCount t ≤ 1 ∧ fileCount t ≤ 1) ∧
    liveCount (runBatch [freshRecord] (fun _ => cleanAccEnv) true true).finalState = 0 ∧
    fileCount (runBatch [freshRecord] (fun _ => cleanAccEnv) true true).finalState = 0 :=
  C9_single_resource_amended [freshRecord] (fun _ => cleanAccEnv)
    (fun _ => ⟨rfl, rfl, rfl, rfl⟩)

end Ozon
